import Mathlib

/-!
Verification of the on-chain orderbook event ledger (`src/lib.rs`).

The program persists an `OrderbookMonitor` record in a fixed-size account
data region using Borsh serialization, and exposes two operations:
`process_init` and `process_record_event`.

This development gives a byte-level shallow embedding of:
  * the Borsh encoding of `OrderbookMonitor` / `OrderbookEvent`
    (fixed-width little-endian integers, length-prefixed strings and
    vectors, one-byte booleans and enum tags);
  * Borsh's `try_from_slice` (deserialize and reject leftover bytes);
  * Borsh's `serialize` into a `&mut [u8]` region (overwrites the prefix
    of the region on success, leaves the tail untouched; on overflow it
    writes the first `region.length` bytes of the encoding and fails
    with a `WriteZero`-style I/O error);
  * the two instruction processors, including their ownership checks
    and error propagation.
-/

namespace OB

/-! ### Little-endian byte encoding primitives -/

/-- Little-endian encoding of a natural number into `w` bytes
(each byte is the value mod 256; the number is implicitly reduced
mod `256^w`, matching fixed-width integer serialization). -/
def encBytes : Nat → Nat → List Nat
  | 0, _ => []
  | w + 1, n => n % 256 :: encBytes w (n / 256)

/-- Little-endian value of a byte list. -/
def decBytes : List Nat → Nat
  | [] => 0
  | b :: bs => b + 256 * decBytes bs

/-- Read `w` bytes from the front of a buffer as a little-endian number;
fails when fewer than `w` bytes remain. -/
def readBytes (w : Nat) (l : List Nat) : Option (Nat × List Nat) :=
  if w ≤ l.length then some (decBytes (l.take w), l.drop w) else none

/-! ### Data model (from `src/lib.rs`) -/

/-- `OrderbookEventType` from the source: a three-variant Borsh enum,
serialized as a single tag byte 0 / 1 / 2. -/
inductive OrderbookEventType : Type
  | orderPlaced
  | orderFilled
  | orderCancelled
  deriving DecidableEq, Repr

/-- `OrderbookEvent` from the source. `timestamp` is the Rust `i64`
(modelled as `Int`); `market_name` is the UTF-8 byte content of the
Rust `String`; `price`/`size` are `u64` (modelled as `Nat`). -/
structure OrderbookEvent : Type where
  timestamp : Int
  market_name : List Nat
  price : Nat
  size : Nat
  is_bid : Bool
  event_type : OrderbookEventType
  deriving DecidableEq, Repr

/-- `OrderbookMonitor` from the source. `authority` is the `Pubkey`
(32 raw bytes, modelled as the little-endian value of those bytes). -/
structure OrderbookMonitor : Type where
  initialized : Bool
  authority : Nat
  event_count : Nat
  events : List OrderbookEvent
  deriving DecidableEq, Repr

/-- Range constraints satisfied by every value representable in the Rust
types (u64 / i64 / 32-byte key / u32 vector and string length prefixes). -/
def wfEvent (e : OrderbookEvent) : Prop :=
  -2 ^ 63 ≤ e.timestamp ∧ e.timestamp < 2 ^ 63 ∧
  e.price < 2 ^ 64 ∧ e.size < 2 ^ 64 ∧ e.market_name.length < 2 ^ 32

def wfMonitor (s : OrderbookMonitor) : Prop :=
  s.authority < 2 ^ 256 ∧ s.event_count < 2 ^ 64 ∧
  s.events.length < 2 ^ 32 ∧ ∀ e ∈ s.events, wfEvent e

instance (e : OrderbookEvent) : Decidable (wfEvent e) := by
  unfold wfEvent; infer_instance

instance (s : OrderbookMonitor) : Decidable (wfMonitor s) := by
  unfold wfMonitor; infer_instance

/-! ### Borsh encoding (serialize) -/

/-- Borsh `bool`: one byte, 1 for true, 0 for false. -/
def encBool (b : Bool) : List Nat := [if b then 1 else 0]

/-- Borsh `i64`: 8 little-endian bytes of the two's-complement value. -/
def encI64 (t : Int) : List Nat := encBytes 8 (t.emod (2 ^ 64)).toNat

/-- Borsh `String`: u32 little-endian length prefix, then the bytes. -/
def encName (m : List Nat) : List Nat := encBytes 4 m.length ++ m

/-- Borsh enum tag byte for `OrderbookEventType`. -/
def encEventType : OrderbookEventType → Nat
  | .orderPlaced => 0
  | .orderFilled => 1
  | .orderCancelled => 2

/-- Borsh encoding of one `OrderbookEvent`: fields in declaration order. -/
def encEvent (e : OrderbookEvent) : List Nat :=
  encI64 e.timestamp ++ encName e.market_name ++ encBytes 8 e.price ++
    encBytes 8 e.size ++ encBool e.is_bid ++ [encEventType e.event_type]

/-- Concatenated encodings of a list of events (the payload of the
Borsh `Vec`, after its length prefix). -/
def encEvents : List OrderbookEvent → List Nat
  | [] => []
  | e :: es => encEvent e ++ encEvents es

/-- Borsh encoding of the whole `OrderbookMonitor`: `initialized`,
`authority` (32 raw bytes), `event_count` (u64), then the `events`
vector with a u32 length prefix. -/
def encodeMonitor (s : OrderbookMonitor) : List Nat :=
  encBool s.initialized ++ encBytes 32 s.authority ++
    encBytes 8 s.event_count ++ encBytes 4 s.events.length ++ encEvents s.events

/-! ### Borsh decoding (deserialize) -/

/-- Borsh `bool` deserialization: byte 0 is `false`, byte 1 is `true`,
anything else is an error. -/
def readBool : List Nat → Option (Bool × List Nat)
  | [] => none
  | b :: rest =>
    if b = 0 then some (false, rest)
    else if b = 1 then some (true, rest) else none

/-- Borsh `i64` deserialization: 8 little-endian bytes, two's complement. -/
def readI64 (l : List Nat) : Option (Int × List Nat) :=
  (readBytes 8 l).bind fun p =>
    some ((if p.1 < 2 ^ 63 then (p.1 : Int) else (p.1 : Int) - 2 ^ 64), p.2)

/-- Borsh `String` deserialization: u32 length prefix then that many
bytes (UTF-8 validation is not modelled; real Borsh additionally
rejects invalid UTF-8, which never triggers on encoder output). -/
def readName (l : List Nat) : Option (List Nat × List Nat) :=
  (readBytes 4 l).bind fun p =>
    if p.1 ≤ p.2.length then some (p.2.take p.1, p.2.drop p.1) else none

/-- Borsh enum deserialization for `OrderbookEventType`. -/
def readEventType : List Nat → Option (OrderbookEventType × List Nat)
  | [] => none
  | b :: rest =>
    if b = 0 then some (.orderPlaced, rest)
    else if b = 1 then some (.orderFilled, rest)
    else if b = 2 then some (.orderCancelled, rest) else none

/-- Deserialize one `OrderbookEvent` (fields in declaration order). -/
def readEvent (l : List Nat) : Option (OrderbookEvent × List Nat) :=
  (readI64 l).bind fun ts =>
  (readName ts.2).bind fun nm =>
  (readBytes 8 nm.2).bind fun pr =>
  (readBytes 8 pr.2).bind fun sz =>
  (readBool sz.2).bind fun bd =>
  (readEventType bd.2).bind fun ty =>
  some (⟨ts.1, nm.1, pr.1, sz.1, bd.1, ty.1⟩, ty.2)

/-- Deserialize `n` consecutive events. -/
def readEvents : Nat → List Nat → Option (List OrderbookEvent × List Nat)
  | 0, l => some ([], l)
  | n + 1, l =>
    (readEvent l).bind fun e =>
      (readEvents n e.2).bind fun es => some (e.1 :: es.1, es.2)

/-- Borsh `deserialize` for `OrderbookMonitor`: consume a prefix of the
buffer, return the value and the remaining bytes. -/
def deserializeMonitor (l : List Nat) :
    Option (OrderbookMonitor × List Nat) :=
  (readBool l).bind fun ini =>
  (readBytes 32 ini.2).bind fun auth =>
  (readBytes 8 auth.2).bind fun cnt =>
  (readBytes 4 cnt.2).bind fun n =>
  (readEvents n.1 n.2).bind fun es =>
  some (⟨ini.1, auth.1, cnt.1, es.1⟩, es.2)

/-- Borsh `try_from_slice`: deserialize and fail unless the whole
buffer was consumed ("Not all bytes read"). -/
def tryFromSlice (l : List Nat) : Option OrderbookMonitor :=
  match deserializeMonitor l with
  | some (s, []) => some s
  | _ => none

/-! ### Accounts, errors and the instruction processors -/

/-- The parts of a Solana `AccountInfo` the program reads: the account's
key, its declared owner, and its fixed-size data region. -/
structure AccountInfo : Type where
  key : Nat
  owner : Nat
  data : List Nat
  deriving DecidableEq, Repr

/-- The `ProgramError` values the two processors can produce:
`invalidOwner` is `OrderbookError::InvalidOwner`; the two `borshIo`
values are `ProgramError::BorshIoError` coming from `try_from_slice`
("Not all bytes read" / malformed input) and from `serialize` into a
too-small slice ("failed to write whole buffer"), respectively. -/
inductive ProgErr : Type
  | invalidOwner
  | borshIoDeserialize
  | borshIoWriteZero
  deriving DecidableEq, Repr

/-- Whether a processor outcome is `Ok(())`. -/
def isOk : Except ProgErr Unit → Bool
  | Except.ok _ => true
  | Except.error _ => false

instance : DecidableEq (Except ProgErr Unit) := fun a b =>
  match a, b with
  | Except.ok (), Except.ok () => isTrue rfl
  | Except.error e, Except.error f =>
    match decEq e f with
    | isTrue h => isTrue (congrArg Except.error h)
    | isFalse h => isFalse (fun hh => h (by injection hh))
  | Except.ok (), Except.error _ => isFalse (fun hh => by injection hh)
  | Except.error _, Except.ok () => isFalse (fun hh => by injection hh)

/-- Borsh `serialize(&mut *account.data.borrow_mut())`: the `Write`
impl for `&mut [u8]` copies into the front of the region. If the
encoding fits, it overwrites exactly the first `enc.length` bytes and
leaves the tail of the region unchanged; if not, it fills the whole
region with the first `region.length` bytes of the encoding and fails
(`write_all` returns `WriteZero`). Returns the new region contents and
the outcome. -/
def serializeInto (enc region : List Nat) : Except ProgErr Unit × List Nat :=
  if enc.length ≤ region.length then
    (Except.ok (), enc ++ region.drop enc.length)
  else
    (Except.error ProgErr.borshIoWriteZero, enc.take region.length)

/-- The in-memory state update of `process_record_event` (lines
156-167 of `src/lib.rs`): build the event with the clock's timestamp,
push it onto `events`, increment `event_count`. -/
def appendStep (s : OrderbookMonitor) (clock : Int) (market_name : List Nat)
    (price size : Nat) (is_bid : Bool) (event_type : OrderbookEventType) :
    OrderbookMonitor :=
  { s with
      events := s.events ++ [⟨clock, market_name, price, size, is_bid, event_type⟩],
      event_count := s.event_count + 1 }

/-- The initialize processor from `src/lib.rs`: check ownership, build the
fresh state (authority := the monitor account's own key), serialize it
into the region. Returns the outcome and the region's new contents. -/
def process_init (program_id : Nat) (monitor_account : AccountInfo) :
    Except ProgErr Unit × List Nat :=
  if monitor_account.owner ≠ program_id then
    (Except.error ProgErr.invalidOwner, monitor_account.data)
  else
    serializeInto
      (encodeMonitor ⟨true, monitor_account.key, 0, []⟩)
      monitor_account.data

/-- `process_record_event` from `src/lib.rs`: check ownership, decode
the region with `try_from_slice`, build and append the event (timestamp
from the clock sysvar, never from the instruction), increment the
count, re-serialize into the region. The read-only market account is
never inspected, so it is not a parameter here. Returns the outcome
and the region's new contents. -/
def process_record_event (program_id : Nat) (monitor_account : AccountInfo)
    (clock : Int) (market_name : List Nat) (price size : Nat)
    (is_bid : Bool) (event_type : OrderbookEventType) :
    Except ProgErr Unit × List Nat :=
  if monitor_account.owner ≠ program_id then
    (Except.error ProgErr.invalidOwner, monitor_account.data)
  else
    match tryFromSlice monitor_account.data with
    | none => (Except.error ProgErr.borshIoDeserialize, monitor_account.data)
    | some monitor =>
      serializeInto
        (encodeMonitor
          (appendStep monitor clock market_name price size is_bid event_type))
        monitor_account.data

/-- Ledger states reachable through the intended state-level semantics:
a fresh initialize image, followed by any number of append steps. -/
inductive EvolvedFrom : OrderbookMonitor → OrderbookMonitor → Prop
  | refl (s : OrderbookMonitor) : EvolvedFrom s s
  | step (s t : OrderbookMonitor) (clock : Int) (market_name : List Nat)
      (price size : Nat) (is_bid : Bool) (event_type : OrderbookEventType)
      (h : EvolvedFrom s t) :
      EvolvedFrom s (appendStep t clock market_name price size is_bid event_type)

/-! ### Basic length and round-trip facts for the primitives -/

theorem encBytes_length (w n : Nat) : (encBytes w n).length = w := by
  induction w generalizing n with
  | zero => rfl
  | succ w ih => simp [encBytes, ih]

theorem decBytes_encBytes (w n : Nat) (h : n < 256 ^ w) :
    decBytes (encBytes w n) = n := by
  induction w generalizing n with
  | zero =>
    simp [pow_zero, Nat.lt_one_iff] at h
    simp [h, encBytes, decBytes]
  | succ w ih =>
    have hdiv : n / 256 < 256 ^ w := by
      rw [Nat.div_lt_iff_lt_mul (by norm_num : 0 < 256)]
      calc n < 256 ^ (w + 1) := h
        _ = 256 ^ w * 256 := by ring
    simp only [encBytes, decBytes, ih (n / 256) hdiv]
    exact Nat.mod_add_div n 256

theorem readBytes_encBytes (w n : Nat) (r : List Nat) (h : n < 256 ^ w) :
    readBytes w (encBytes w n ++ r) = some (n, r) := by
  have hlen : (encBytes w n).length = w := encBytes_length w n
  unfold readBytes
  rw [if_pos (by simp [hlen])]
  congr 1
  have ht : (encBytes w n ++ r).take w = encBytes w n := List.take_left' hlen
  have hd : (encBytes w n ++ r).drop w = r := List.drop_left' hlen
  rw [ht, hd, decBytes_encBytes w n h]

theorem readBytes_length {w : Nat} {l : List Nat} {n : Nat} {r : List Nat}
    (h : readBytes w l = some (n, r)) : l.length = w + r.length := by
  unfold readBytes at h
  split at h
  · rename_i hle
    obtain ⟨-, hr⟩ := Prod.mk.injEq .. ▸ Option.some.injEq .. ▸ h
    have := congrArg List.length hr
    simp [List.length_drop] at this
    omega
  · exact absurd h (by simp)

theorem encEvent_length (e : OrderbookEvent) :
    (encEvent e).length = 30 + e.market_name.length := by
  simp [encEvent, encI64, encName, encBool, encBytes_length]
  omega

theorem encodeMonitor_length (s : OrderbookMonitor) :
    (encodeMonitor s).length = 45 + (encEvents s.events).length := by
  simp [encodeMonitor, encBool, encBytes_length]
  omega

/-! ### Round-trip lemmas: decoding an encoder's output -/

theorem some_bind {α β : Type} (a : α) (f : α → Option β) :
    (some a).bind f = f a := rfl

theorem readBool_encBool (b : Bool) (r : List Nat) :
    readBool (encBool b ++ r) = some (b, r) := by
  cases b <;> simp [readBool, encBool]

theorem readI64_encI64 (t : Int) (r : List Nat)
    (h1 : -2 ^ 63 ≤ t) (h2 : t < 2 ^ 63) :
    readI64 (encI64 t ++ r) = some (t, r) := by
  have h64 : ((2 : Int) ^ 64) = 18446744073709551616 := by norm_num
  have hmod : (0 : Int) ≤ t.emod (2 ^ 64) := Int.emod_nonneg t (by norm_num)
  have hmod2 : t.emod (2 ^ 64) < 2 ^ 64 := Int.emod_lt_of_pos t (by norm_num)
  have hlt : (t.emod (2 ^ 64)).toNat < 256 ^ 8 := by
    have : ((256 : Nat) ^ 8) = 18446744073709551616 := by norm_num
    omega
  unfold readI64 encI64
  rw [readBytes_encBytes 8 _ r hlt, some_bind]
  rcases le_or_lt 0 t with hpos | hneg
  · have heq : t.emod (2 ^ 64) = t := Int.emod_eq_of_lt hpos (by omega)
    have htn : ((t.emod (2 ^ 64)).toNat : Int) = t := by rw [heq]; omega
    have hsm : (t.emod (2 ^ 64)).toNat < 2 ^ 63 := by
      have : ((2 : Nat) ^ 63) = 9223372036854775808 := by norm_num
      omega
    rw [if_pos hsm, htn]
  · have heq : t.emod (2 ^ 64) = t + 2 ^ 64 := by
      have e1 : t + (2 : Int) ^ 64 = t + 2 ^ 64 * 1 := by ring
      have e2 : (t + (2 : Int) ^ 64 * 1).emod (2 ^ 64) = t.emod (2 ^ 64) :=
        Int.add_mul_emod_self_left t (2 ^ 64) 1
      have e3 : (t + (2 : Int) ^ 64).emod (2 ^ 64) = t + 2 ^ 64 :=
        Int.emod_eq_of_lt (by omega) (by omega)
      rw [e1] at e3
      omega
    have htn : ((t.emod (2 ^ 64)).toNat : Int) = t + 2 ^ 64 := by omega
    have hsm : ¬ (t.emod (2 ^ 64)).toNat < 2 ^ 63 := by
      have : ((2 : Nat) ^ 63) = 9223372036854775808 := by norm_num
      omega
    rw [if_neg hsm]
    congr 1
    congr 1
    omega

theorem readName_encName (m r : List Nat) (h : m.length < 2 ^ 32) :
    readName (encName m ++ r) = some (m, r) := by
  have hlt : m.length < 256 ^ 4 := by
    have : ((256 : Nat) ^ 4) = 4294967296 := by norm_num
    omega
  unfold readName encName
  rw [List.append_assoc, readBytes_encBytes 4 _ _ hlt, some_bind]
  rw [if_pos (by simp)]
  rw [List.take_left' rfl, List.drop_left' rfl]

theorem readEventType_enc (ty : OrderbookEventType) (r : List Nat) :
    readEventType (encEventType ty :: r) = some (ty, r) := by
  cases ty <;> simp [readEventType, encEventType]

theorem readEvent_encEvent (e : OrderbookEvent) (r : List Nat)
    (hwf : wfEvent e) : readEvent (encEvent e ++ r) = some (e, r) := by
  obtain ⟨h1, h2, h3, h4, h5⟩ := hwf
  have hp : e.price < 256 ^ 8 := by
    have : ((256 : Nat) ^ 8) = 18446744073709551616 := by norm_num
    have : ((2 : Nat) ^ 64) = 18446744073709551616 := by norm_num
    omega
  have hs : e.size < 256 ^ 8 := by
    have : ((256 : Nat) ^ 8) = 18446744073709551616 := by norm_num
    have : ((2 : Nat) ^ 64) = 18446744073709551616 := by norm_num
    omega
  unfold readEvent
  simp only [encEvent, List.append_assoc, List.singleton_append]
  rw [readI64_encI64 _ _ h1 h2]
  simp only [some_bind]
  rw [readName_encName _ _ h5]
  simp only [some_bind]
  rw [readBytes_encBytes 8 _ _ hp]
  simp only [some_bind]
  rw [readBytes_encBytes 8 _ _ hs]
  simp only [some_bind]
  rw [readBool_encBool]
  simp only [some_bind]
  rw [readEventType_enc]
  simp only [some_bind]

theorem readEvents_encEvents (es : List OrderbookEvent) (r : List Nat)
    (hwf : ∀ e ∈ es, wfEvent e) :
    readEvents es.length (encEvents es ++ r) = some (es, r) := by
  induction es with
  | nil => simp [readEvents, encEvents]
  | cons e es ih =>
    have he : wfEvent e := hwf e (by simp)
    have hes : ∀ x ∈ es, wfEvent x := fun x hx => hwf x (by simp [hx])
    simp only [List.length_cons, encEvents, List.append_assoc, readEvents]
    rw [readEvent_encEvent e _ he]
    simp only [some_bind]
    rw [ih hes]
    simp only [some_bind]

theorem deserializeMonitor_encodeMonitor (s : OrderbookMonitor)
    (r : List Nat) (hwf : wfMonitor s) :
    deserializeMonitor (encodeMonitor s ++ r) = some (s, r) := by
  obtain ⟨h1, h2, h3, h4⟩ := hwf
  have ha : s.authority < 256 ^ 32 := by
    have h256 : ((256 : Nat) ^ 32) = 2 ^ 256 := by norm_num
    omega
  have hc : s.event_count < 256 ^ 8 := by
    have : ((256 : Nat) ^ 8) = 2 ^ 64 := by norm_num
    omega
  have hn : s.events.length < 256 ^ 4 := by
    have : ((256 : Nat) ^ 4) = 2 ^ 32 := by norm_num
    omega
  unfold deserializeMonitor
  simp only [encodeMonitor, List.append_assoc]
  rw [readBool_encBool]
  simp only [some_bind]
  rw [readBytes_encBytes 32 _ _ ha]
  simp only [some_bind]
  rw [readBytes_encBytes 8 _ _ hc]
  simp only [some_bind]
  rw [readBytes_encBytes 4 _ _ hn]
  simp only [some_bind]
  rw [readEvents_encEvents _ _ h4]
  simp only [some_bind]

theorem tryFromSlice_encodeMonitor (s : OrderbookMonitor)
    (hwf : wfMonitor s) : tryFromSlice (encodeMonitor s) = some s := by
  have h := deserializeMonitor_encodeMonitor s [] hwf
  rw [List.append_nil] at h
  unfold tryFromSlice
  rw [h]

/-! ### Consumption lemmas: a successful decode consumes exactly the
bytes of the decoded value's encoding -/

theorem readBool_length {l : List Nat} {b : Bool} {r : List Nat}
    (h : readBool l = some (b, r)) : l.length = 1 + r.length := by
  match l with
  | [] => exact absurd h (by simp [readBool])
  | x :: rest =>
    simp only [readBool] at h
    split_ifs at h <;> simp_all <;> omega

theorem readI64_length {l : List Nat} {t : Int} {r : List Nat}
    (h : readI64 l = some (t, r)) : l.length = 8 + r.length := by
  unfold readI64 at h
  rw [Option.bind_eq_some] at h
  obtain ⟨⟨n, r1⟩, hb, hv⟩ := h
  dsimp only at hv
  have hl := readBytes_length hb
  simp only [Option.some.injEq, Prod.mk.injEq] at hv
  obtain ⟨-, hr⟩ := hv
  subst hr
  omega

theorem readName_length {l : List Nat} {m r : List Nat}
    (h : readName l = some (m, r)) :
    l.length = 4 + m.length + r.length := by
  unfold readName at h
  rw [Option.bind_eq_some] at h
  obtain ⟨⟨n, r1⟩, hb, hv⟩ := h
  dsimp only at hv
  have hl := readBytes_length hb
  split_ifs at hv with hle
  simp only [Option.some.injEq, Prod.mk.injEq] at hv
  obtain ⟨hm, hr⟩ := hv
  have h1 : m.length = n := by
    rw [← hm, List.length_take]
    omega
  have h2 : r.length = r1.length - n := by
    rw [← hr, List.length_drop]
  omega

theorem readEventType_length {l : List Nat} {ty : OrderbookEventType}
    {r : List Nat} (h : readEventType l = some (ty, r)) :
    l.length = 1 + r.length := by
  match l with
  | [] => exact absurd h (by simp [readEventType])
  | x :: rest =>
    simp only [readEventType] at h
    split_ifs at h <;> simp_all <;> omega

theorem readEvent_length {l : List Nat} {e : OrderbookEvent} {r : List Nat}
    (h : readEvent l = some (e, r)) :
    l.length = (encEvent e).length + r.length := by
  unfold readEvent at h
  rw [Option.bind_eq_some] at h
  obtain ⟨⟨ts, l1⟩, h1, h⟩ := h
  rw [Option.bind_eq_some] at h
  obtain ⟨⟨nm, l2⟩, h2, h⟩ := h
  rw [Option.bind_eq_some] at h
  obtain ⟨⟨pr, l3⟩, h3, h⟩ := h
  rw [Option.bind_eq_some] at h
  obtain ⟨⟨sz, l4⟩, h4, h⟩ := h
  rw [Option.bind_eq_some] at h
  obtain ⟨⟨bd, l5⟩, h5, h⟩ := h
  rw [Option.bind_eq_some] at h
  obtain ⟨⟨ty, l6⟩, h6, h⟩ := h
  dsimp only at h1 h2 h3 h4 h5 h6 h
  simp only [Option.some.injEq, Prod.mk.injEq] at h
  obtain ⟨he, hr⟩ := h
  have k1 := readI64_length h1
  have k2 := readName_length h2
  have k3 := readBytes_length h3
  have k4 := readBytes_length h4
  have k5 := readBool_length h5
  have k6 := readEventType_length h6
  have hev : (encEvent e).length = 30 + e.market_name.length :=
    encEvent_length e
  have hnm : e.market_name = nm := by rw [← he]
  have hnml : e.market_name.length = nm.length := by rw [hnm]
  subst hr
  omega

theorem readEvents_length {n : Nat} {l : List Nat}
    {es : List OrderbookEvent} {r : List Nat}
    (h : readEvents n l = some (es, r)) :
    l.length = (encEvents es).length + r.length ∧ es.length = n := by
  induction n generalizing l es r with
  | zero =>
    unfold readEvents at h
    simp only [Option.some.injEq, Prod.mk.injEq] at h
    obtain ⟨he, hr⟩ := h
    subst he; subst hr
    simp [encEvents]
  | succ n ih =>
    unfold readEvents at h
    rw [Option.bind_eq_some] at h
    obtain ⟨⟨e, l1⟩, h1, h⟩ := h
    rw [Option.bind_eq_some] at h
    obtain ⟨⟨es1, l2⟩, h2, h⟩ := h
    dsimp only at h1 h2 h
    simp only [Option.some.injEq, Prod.mk.injEq] at h
    obtain ⟨he, hr⟩ := h
    subst he; subst hr
    have k1 := readEvent_length h1
    have k2 := ih h2
    simp only [encEvents, List.length_append, List.length_cons]
    omega

theorem deserializeMonitor_length {l : List Nat} {s : OrderbookMonitor}
    {r : List Nat} (h : deserializeMonitor l = some (s, r)) :
    l.length = (encodeMonitor s).length + r.length := by
  unfold deserializeMonitor at h
  rw [Option.bind_eq_some] at h
  obtain ⟨⟨ini, l1⟩, h1, h⟩ := h
  rw [Option.bind_eq_some] at h
  obtain ⟨⟨auth, l2⟩, h2, h⟩ := h
  rw [Option.bind_eq_some] at h
  obtain ⟨⟨cnt, l3⟩, h3, h⟩ := h
  rw [Option.bind_eq_some] at h
  obtain ⟨⟨n, l4⟩, h4, h⟩ := h
  rw [Option.bind_eq_some] at h
  obtain ⟨⟨es, l5⟩, h5, h⟩ := h
  dsimp only at h1 h2 h3 h4 h5 h
  simp only [Option.some.injEq, Prod.mk.injEq] at h
  obtain ⟨hs, hr⟩ := h
  have k1 := readBool_length h1
  have k2 := readBytes_length h2
  have k3 := readBytes_length h3
  have k4 := readBytes_length h4
  have k5 := readEvents_length h5
  have hes : s.events = es := by rw [← hs]
  have hm : (encodeMonitor s).length = 45 + (encEvents s.events).length :=
    encodeMonitor_length s
  rw [hes] at hm
  subst hr
  omega

theorem tryFromSlice_length {l : List Nat} {s : OrderbookMonitor}
    (h : tryFromSlice l = some s) :
    l.length = (encodeMonitor s).length := by
  unfold tryFromSlice at h
  split at h
  · rename_i heq
    simp only [Option.some.injEq] at h
    subst h
    have := deserializeMonitor_length heq
    simpa using this
  · exact absurd h (by simp)

/-! ### Size growth of an append -/

theorem encEvents_append (xs ys : List OrderbookEvent) :
    encEvents (xs ++ ys) = encEvents xs ++ encEvents ys := by
  induction xs with
  | nil => simp [encEvents]
  | cons x xs ih => simp [encEvents, ih]

theorem encodeMonitor_appendStep_length (s : OrderbookMonitor)
    (clock : Int) (market_name : List Nat) (price size : Nat)
    (is_bid : Bool) (event_type : OrderbookEventType) :
    (encodeMonitor (appendStep s clock market_name price size is_bid
      event_type)).length
      = (encodeMonitor s).length + 30 + market_name.length := by
  rw [encodeMonitor_length, encodeMonitor_length]
  simp only [appendStep, encEvents_append, List.length_append]
  simp [encEvents, encEvent_length]
  omega

/-! ### Behaviour of the two processors -/

theorem process_init_bad_owner (program_id : Nat) (acct : AccountInfo)
    (h : acct.owner ≠ program_id) :
    process_init program_id acct
      = (Except.error ProgErr.invalidOwner, acct.data) := by
  unfold process_init
  rw [if_pos h]

theorem process_record_event_bad_owner (program_id : Nat)
    (acct : AccountInfo) (clock : Int) (market_name : List Nat)
    (price size : Nat) (is_bid : Bool) (event_type : OrderbookEventType)
    (h : acct.owner ≠ program_id) :
    process_record_event program_id acct clock market_name price size is_bid
      event_type = (Except.error ProgErr.invalidOwner, acct.data) := by
  unfold process_record_event
  rw [if_pos h]

theorem encodeMonitor_fresh_length (k : Nat) :
    (encodeMonitor ⟨true, k, 0, []⟩).length = 45 := by
  rw [encodeMonitor_length]
  simp [encEvents]

theorem process_init_ok (program_id : Nat) (acct : AccountInfo)
    (hown : acct.owner = program_id) (hlen : 45 ≤ acct.data.length) :
    process_init program_id acct
      = (Except.ok (),
         encodeMonitor ⟨true, acct.key, 0, []⟩ ++ acct.data.drop 45) := by
  have h45 := encodeMonitor_fresh_length acct.key
  unfold process_init serializeInto
  rw [if_neg (by simp [hown])]
  rw [if_pos (by rw [h45]; exact hlen), h45]

theorem process_init_too_small (program_id : Nat) (acct : AccountInfo)
    (hown : acct.owner = program_id) (hlen : acct.data.length < 45) :
    process_init program_id acct
      = (Except.error ProgErr.borshIoWriteZero,
         (encodeMonitor ⟨true, acct.key, 0, []⟩).take acct.data.length) := by
  have h45 := encodeMonitor_fresh_length acct.key
  unfold process_init serializeInto
  rw [if_neg (by simp [hown])]
  rw [if_neg (by rw [h45]; omega)]

theorem process_record_event_undecodable (program_id : Nat)
    (acct : AccountInfo) (clock : Int) (market_name : List Nat)
    (price size : Nat) (is_bid : Bool) (event_type : OrderbookEventType)
    (hown : acct.owner = program_id)
    (hdec : tryFromSlice acct.data = none) :
    process_record_event program_id acct clock market_name price size is_bid
      event_type = (Except.error ProgErr.borshIoDeserialize, acct.data) := by
  unfold process_record_event
  rw [if_neg (by simp [hown]), hdec]

/-- Central capacity fact: whenever the region decodes at all, the
re-serialization of the grown state cannot fit (the decode consumed the
whole region, and the new encoding is at least 30 bytes longer), so
`process_record_event` fails with the write error after overwriting the
region with the truncated new encoding. -/
theorem process_record_event_decoded (program_id : Nat)
    (acct : AccountInfo) (clock : Int) (market_name : List Nat)
    (price size : Nat) (is_bid : Bool) (event_type : OrderbookEventType)
    (hown : acct.owner = program_id) (st : OrderbookMonitor)
    (hdec : tryFromSlice acct.data = some st) :
    process_record_event program_id acct clock market_name price size is_bid
      event_type
      = (Except.error ProgErr.borshIoWriteZero,
         (encodeMonitor (appendStep st clock market_name price size is_bid
            event_type)).take acct.data.length) := by
  have hlen := tryFromSlice_length hdec
  have hgrow := encodeMonitor_appendStep_length st clock market_name price
    size is_bid event_type
  unfold process_record_event
  rw [if_neg (by simp [hown]), hdec]
  dsimp only
  unfold serializeInto
  rw [if_neg (by omega)]

/-- `process_record_event` never returns `Ok`: every region either fails
the ownership check, fails to decode, or (having decoded, which pins the
region's length to the current encoding's length) overflows the region
on re-serialization. -/
theorem process_record_event_never_ok (program_id : Nat)
    (acct : AccountInfo) (clock : Int) (market_name : List Nat)
    (price size : Nat) (is_bid : Bool) (event_type : OrderbookEventType) :
    isOk (process_record_event program_id acct clock market_name price size
      is_bid event_type).1 = false := by
  by_cases hown : acct.owner = program_id
  · cases hdec : tryFromSlice acct.data with
    | none =>
      rw [process_record_event_undecodable _ _ _ _ _ _ _ _ hown hdec]
      rfl
    | some st =>
      rw [process_record_event_decoded _ _ _ _ _ _ _ _ hown st hdec]
      rfl
  · rw [process_record_event_bad_owner _ _ _ _ _ _ _ _ hown]
    rfl

/-! ### Frame and evolution facts for the state-level append -/

theorem appendStep_frame (s : OrderbookMonitor) (clock : Int)
    (market_name : List Nat) (price size : Nat) (is_bid : Bool)
    (event_type : OrderbookEventType) :
    (appendStep s clock market_name price size is_bid event_type).authority
        = s.authority
    ∧ (appendStep s clock market_name price size is_bid
        event_type).initialized = s.initialized := ⟨rfl, rfl⟩

theorem appendStep_adds_one (s : OrderbookMonitor) (clock : Int)
    (market_name : List Nat) (price size : Nat) (is_bid : Bool)
    (event_type : OrderbookEventType) :
    (appendStep s clock market_name price size is_bid
        event_type).events.length = s.events.length + 1
    ∧ (appendStep s clock market_name price size is_bid
        event_type).event_count = s.event_count + 1 := by
  constructor
  · simp [appendStep]
  · rfl

theorem evolvedFrom_frame {s t : OrderbookMonitor} (h : EvolvedFrom s t) :
    t.authority = s.authority ∧ t.initialized = s.initialized := by
  induction h with
  | refl => exact ⟨rfl, rfl⟩
  | step t clock market_name price size is_bid event_type h ih => exact ih

theorem evolvedFrom_count {s t : OrderbookMonitor} (h : EvolvedFrom s t)
    (h0 : s.event_count = s.events.length) :
    t.event_count = t.events.length := by
  induction h with
  | refl => exact h0
  | step t clock market_name price size is_bid event_type h ih =>
    simp [appendStep, ih]

theorem tryFromSlice_junk (s : OrderbookMonitor) (junk : List Nat)
    (hwf : wfMonitor s) (hne : junk ≠ []) :
    tryFromSlice (encodeMonitor s ++ junk) = none := by
  unfold tryFromSlice
  rw [deserializeMonitor_encodeMonitor s junk hwf]
  cases junk with
  | nil => exact absurd rfl hne
  | cons j js => rfl

/-! ### Claims -/

/-- Claim C1, counterexample: on an exactly-sized initialized region
(the only kind `try_from_slice` accepts), an append whose
re-serialization exceeds the region does fail with the write/capacity
error, but the region's bytes are NOT left identical to their pre-call
values: the truncated new encoding has been written over them. -/
theorem c1_capacity_counterexample :
    (process_record_event 7 ⟨5, 7, encodeMonitor ⟨true, 5, 0, []⟩⟩ 0 [] 1 1
        true OrderbookEventType.orderPlaced).1
      = Except.error ProgErr.borshIoWriteZero
    ∧ (process_record_event 7 ⟨5, 7, encodeMonitor ⟨true, 5, 0, []⟩⟩ 0 [] 1 1
        true OrderbookEventType.orderPlaced).2
      ≠ encodeMonitor ⟨true, 5, 0, []⟩ := by
  decide

/-- Claim C1 as amended: whenever the ownership check passes and the
region decodes, re-serializing the state with the new event appended
always exceeds the region's fixed size, the call fails with the
Borsh write ("capacity") error, and the region is left holding the
first region-length bytes of the attempted new encoding — a partial
write; the pre-call bytes are not preserved by this code (the hosting
runtime's transaction rollback provides that). -/
theorem c1_capacity_amended (program_id : Nat) (acct : AccountInfo)
    (clock : Int) (market_name : List Nat) (price size : Nat)
    (is_bid : Bool) (event_type : OrderbookEventType)
    (hown : acct.owner = program_id) (st : OrderbookMonitor)
    (hdec : tryFromSlice acct.data = some st) :
    process_record_event program_id acct clock market_name price size is_bid
      event_type
      = (Except.error ProgErr.borshIoWriteZero,
         (encodeMonitor (appendStep st clock market_name price size is_bid
            event_type)).take acct.data.length) :=
  process_record_event_decoded program_id acct clock market_name price size
    is_bid event_type hown st hdec

/-- Claim C1 witness: the amended theorem applied to a concrete
initialized 45-byte region. -/
theorem c1_capacity_witness :
    process_record_event 7 ⟨5, 7, encodeMonitor ⟨true, 5, 0, []⟩⟩ 0 [] 1 1
        true OrderbookEventType.orderPlaced
      = (Except.error ProgErr.borshIoWriteZero,
         (encodeMonitor (appendStep ⟨true, 5, 0, []⟩ 0 [] 1 1 true
            OrderbookEventType.orderPlaced)).take
           (⟨5, 7, encodeMonitor ⟨true, 5, 0, []⟩⟩ : AccountInfo).data.length) :=
  c1_capacity_amended 7 ⟨5, 7, encodeMonitor ⟨true, 5, 0, []⟩⟩ 0 [] 1 1 true
    OrderbookEventType.orderPlaced rfl ⟨true, 5, 0, []⟩ (by decide)

/-- Claim C2, counterexample: a region holding a decodable state with
initialized = false is accepted by the decode step (the code never
checks the initialized flag), so the append proceeds, fails only at
re-serialization with the write error — not a deserialization error —
and leaves a partial write in the region. -/
theorem c2_uninitialized_counterexample :
    (process_record_event 7 ⟨5, 7, encodeMonitor ⟨false, 5, 0, []⟩⟩ 0 [] 1 1
        true OrderbookEventType.orderPlaced).1
      = Except.error ProgErr.borshIoWriteZero
    ∧ (process_record_event 7 ⟨5, 7, encodeMonitor ⟨false, 5, 0, []⟩⟩ 0 [] 1 1
        true OrderbookEventType.orderPlaced).2
      ≠ encodeMonitor ⟨false, 5, 0, []⟩ := by
  decide

/-- Claim C2 as amended: no append ever succeeds (on uninitialized
regions or any other); bytes that fail to decode produce the
deserialization error with the region untouched, while a decodable
initialized = false state passes decoding unchecked and fails only at
re-serialization (with a partial write, per C1). -/
theorem c2_no_init_check_amended (program_id : Nat) (acct : AccountInfo)
    (clock : Int) (market_name : List Nat) (price size : Nat)
    (is_bid : Bool) (event_type : OrderbookEventType) :
    isOk (process_record_event program_id acct clock market_name price size
        is_bid event_type).1 = false
    ∧ (acct.owner = program_id → tryFromSlice acct.data = none →
        process_record_event program_id acct clock market_name price size
            is_bid event_type
          = (Except.error ProgErr.borshIoDeserialize, acct.data)) :=
  ⟨process_record_event_never_ok program_id acct clock market_name price size
      is_bid event_type,
   fun h1 h2 => process_record_event_undecodable program_id acct clock
      market_name price size is_bid event_type h1 h2⟩

/-- Claim C2 witness: the amended theorem applied to a one-byte garbage
region (byte 2 is not a valid Borsh boolean). -/
theorem c2_no_init_check_witness :
    isOk (process_record_event 7 ⟨5, 7, [2]⟩ 0 [] 1 1 true
        OrderbookEventType.orderPlaced).1 = false
    ∧ process_record_event 7 ⟨5, 7, [2]⟩ 0 [] 1 1 true
        OrderbookEventType.orderPlaced
      = (Except.error ProgErr.borshIoDeserialize, [2]) :=
  ⟨(c2_no_init_check_amended 7 ⟨5, 7, [2]⟩ 0 [] 1 1 true
      OrderbookEventType.orderPlaced).1,
   (c2_no_init_check_amended 7 ⟨5, 7, [2]⟩ 0 [] 1 1 true
      OrderbookEventType.orderPlaced).2 rfl (by decide)⟩

/-- Claim C3: decoding the serialization of a ledger state yields the
state back, for every state whose fields fit their Rust types (which
includes every state reachable by initialize and successful appends:
initialize writes zero events and a 32-byte authority, and each
successful append grows the count and event list by one within u64 and
u32 bounds). -/
theorem c3_roundtrip (s : OrderbookMonitor) (hwf : wfMonitor s) :
    tryFromSlice (encodeMonitor s) = some s :=
  tryFromSlice_encodeMonitor s hwf

/-- Claim C3 witness: round trip evaluated on a concrete state holding
one event. -/
theorem c3_roundtrip_witness :
    wfMonitor ⟨true, 5, 1, [⟨100, [83, 79, 76], 2, 3, true,
        OrderbookEventType.orderFilled⟩]⟩
    ∧ tryFromSlice (encodeMonitor ⟨true, 5, 1, [⟨100, [83, 79, 76], 2, 3,
        true, OrderbookEventType.orderFilled⟩]⟩)
      = some ⟨true, 5, 1, [⟨100, [83, 79, 76], 2, 3, true,
        OrderbookEventType.orderFilled⟩]⟩ :=
  ⟨by decide, c3_roundtrip _ (by decide)⟩

/-- Claim C4: along any sequence of append steps from a freshly
initialized state, event_count equals the length of events, and each
append step adds exactly one event and increments event_count by
exactly one. -/
theorem c4_count_invariant (k : Nat) (t : OrderbookMonitor)
    (h : EvolvedFrom ⟨true, k, 0, []⟩ t) (clock : Int)
    (market_name : List Nat) (price size : Nat) (is_bid : Bool)
    (event_type : OrderbookEventType) :
    t.event_count = t.events.length
    ∧ (appendStep t clock market_name price size is_bid
        event_type).events.length = t.events.length + 1
    ∧ (appendStep t clock market_name price size is_bid
        event_type).event_count = t.event_count + 1 :=
  ⟨evolvedFrom_count h rfl,
   (appendStep_adds_one t clock market_name price size is_bid event_type).1,
   (appendStep_adds_one t clock market_name price size is_bid event_type).2⟩

/-- Claim C4 witness: the invariant evaluated after one append step
from a fresh state. -/
theorem c4_count_invariant_witness :
    (appendStep ⟨true, 5, 0, []⟩ 0 [] 1 1 true
        OrderbookEventType.orderPlaced).event_count
      = (appendStep ⟨true, 5, 0, []⟩ 0 [] 1 1 true
          OrderbookEventType.orderPlaced).events.length
    ∧ (appendStep (appendStep ⟨true, 5, 0, []⟩ 0 [] 1 1 true
          OrderbookEventType.orderPlaced) 7 [1] 2 3 false
          OrderbookEventType.orderCancelled).events.length
      = (appendStep ⟨true, 5, 0, []⟩ 0 [] 1 1 true
          OrderbookEventType.orderPlaced).events.length + 1
    ∧ (appendStep (appendStep ⟨true, 5, 0, []⟩ 0 [] 1 1 true
          OrderbookEventType.orderPlaced) 7 [1] 2 3 false
          OrderbookEventType.orderCancelled).event_count
      = (appendStep ⟨true, 5, 0, []⟩ 0 [] 1 1 true
          OrderbookEventType.orderPlaced).event_count + 1 :=
  c4_count_invariant 5 _
    (EvolvedFrom.step _ _ 0 [] 1 1 true OrderbookEventType.orderPlaced
      (EvolvedFrom.refl _)) 7 [1] 2 3 false OrderbookEventType.orderCancelled

/-- Claim C5: a region whose declared owner differs from the program id
makes both processors fail with InvalidOwner, and the region's bytes
are returned unchanged (the check precedes any write). -/
theorem c5_ownership_gate (program_id : Nat) (acct : AccountInfo)
    (clock : Int) (market_name : List Nat) (price size : Nat)
    (is_bid : Bool) (event_type : OrderbookEventType)
    (h : acct.owner ≠ program_id) :
    process_init program_id acct
      = (Except.error ProgErr.invalidOwner, acct.data)
    ∧ process_record_event program_id acct clock market_name price size
        is_bid event_type
      = (Except.error ProgErr.invalidOwner, acct.data) :=
  ⟨process_init_bad_owner program_id acct h,
   process_record_event_bad_owner program_id acct clock market_name price
     size is_bid event_type h⟩

/-- Claim C5 witness: the ownership gate evaluated on a region owned by
account 3 while the program id is 7. -/
theorem c5_ownership_gate_witness :
    process_init 7 ⟨5, 3, [0, 1, 2]⟩
      = (Except.error ProgErr.invalidOwner, [0, 1, 2])
    ∧ process_record_event 7 ⟨5, 3, [0, 1, 2]⟩ 0 [] 1 1 true
        OrderbookEventType.orderPlaced
      = (Except.error ProgErr.invalidOwner, [0, 1, 2]) :=
  c5_ownership_gate 7 ⟨5, 3, [0, 1, 2]⟩ 0 [] 1 1 true
    OrderbookEventType.orderPlaced (by decide)

/-- Claim C6: after any number N ≥ 0 of append steps from an initialized
state, the authority (and the initialized flag) equal the values
recorded at initialize; a single append step never modifies either
field. -/
theorem c6_authority_immutable (s t : OrderbookMonitor)
    (h : EvolvedFrom s t) (clock : Int) (market_name : List Nat)
    (price size : Nat) (is_bid : Bool) (event_type : OrderbookEventType) :
    t.authority = s.authority ∧ t.initialized = s.initialized
    ∧ (appendStep t clock market_name price size is_bid
        event_type).authority = t.authority
    ∧ (appendStep t clock market_name price size is_bid
        event_type).initialized = t.initialized :=
  ⟨(evolvedFrom_frame h).1, (evolvedFrom_frame h).2, rfl, rfl⟩

/-- Claim C6 witness: authority preservation evaluated after one append
step from a fresh state. -/
theorem c6_authority_immutable_witness :
    (appendStep ⟨true, 5, 0, []⟩ 0 [] 1 1 true
        OrderbookEventType.orderPlaced).authority
      = (⟨true, 5, 0, []⟩ : OrderbookMonitor).authority
    ∧ (appendStep ⟨true, 5, 0, []⟩ 0 [] 1 1 true
        OrderbookEventType.orderPlaced).initialized
      = (⟨true, 5, 0, []⟩ : OrderbookMonitor).initialized
    ∧ (appendStep (appendStep ⟨true, 5, 0, []⟩ 0 [] 1 1 true
          OrderbookEventType.orderPlaced) 7 [1] 2 3 false
          OrderbookEventType.orderCancelled).authority
      = (appendStep ⟨true, 5, 0, []⟩ 0 [] 1 1 true
          OrderbookEventType.orderPlaced).authority
    ∧ (appendStep (appendStep ⟨true, 5, 0, []⟩ 0 [] 1 1 true
          OrderbookEventType.orderPlaced) 7 [1] 2 3 false
          OrderbookEventType.orderCancelled).initialized
      = (appendStep ⟨true, 5, 0, []⟩ 0 [] 1 1 true
          OrderbookEventType.orderPlaced).initialized :=
  c6_authority_immutable ⟨true, 5, 0, []⟩ _
    (EvolvedFrom.step _ _ 0 [] 1 1 true OrderbookEventType.orderPlaced
      (EvolvedFrom.refl _)) 7 [1] 2 3 false OrderbookEventType.orderCancelled

/-- Claim C7, counterexample: a 3-byte region passes the ownership check
but initialize does NOT succeed — the 45-byte fresh image does not fit,
the call fails with the write error, and the region is left holding the
truncated image (bytes 1, 5, 0), not its prior contents; additionally,
on a 46-byte region initialize succeeds but the stale trailing byte
survives, so the image does not replace the contents in full. -/
theorem c7_initialize_counterexample :
    (process_init 7 ⟨5, 7, [9, 9, 9]⟩).1
      = Except.error ProgErr.borshIoWriteZero
    ∧ (process_init 7 ⟨5, 7, [9, 9, 9]⟩).2 = [1, 5, 0]
    ∧ (process_init 7
        ⟨5, 7, encodeMonitor ⟨true, 5, 0, []⟩ ++ [9]⟩).2
      = encodeMonitor ⟨true, 5, 0, []⟩ ++ [9] := by
  decide

/-- Claim C7 as amended: for every region of at least 45 bytes passing
the ownership check (regardless of prior contents, including an
already-initialized ledger), initialize succeeds and writes the fresh
state (initialized = true, authority = the account's own key,
event_count = 0, events empty) over the first 45 bytes of the region,
leaving any trailing bytes unchanged; smaller regions fail with the
write error after a partial write. -/
theorem c7_initialize_amended (program_id : Nat) (acct : AccountInfo)
    (hown : acct.owner = program_id) (hlen : 45 ≤ acct.data.length) :
    process_init program_id acct
      = (Except.ok (),
         encodeMonitor ⟨true, acct.key, 0, []⟩ ++ acct.data.drop 45) :=
  process_init_ok program_id acct hown hlen

/-- Claim C7 witness: initialize evaluated on a zeroed 45-byte region. -/
theorem c7_initialize_witness :
    process_init 7 ⟨5, 7, List.replicate 45 0⟩
      = (Except.ok (),
         encodeMonitor ⟨true, 5, 0, []⟩ ++ (List.replicate 45 0).drop 45) :=
  c7_initialize_amended 7 ⟨5, 7, List.replicate 45 0⟩ rfl (by decide)

/-- Claim C8: scenario B cannot happen on this code. On the only region
sizing the decode step accepts (exactly the current encoding, 45 bytes
here), the append fails at re-serialization with the write error; on
any larger region (such as the 1000-byte one in the repository's own
test, modelled here by 55 extra zero bytes) the decode step itself
fails. The third conjunct records what the in-memory update would
store: one event whose timestamp is the clock argument (1700000000),
not any instruction input. -/
theorem c8_scenario_b_impossible :
    (process_record_event 7 ⟨5, 7, encodeMonitor ⟨true, 5, 0, []⟩⟩
        1700000000 [83, 79, 76, 47, 85, 83, 68, 67] 2500000000 10000000
        true OrderbookEventType.orderPlaced).1
      = Except.error ProgErr.borshIoWriteZero
    ∧ (process_record_event 7
        ⟨5, 7, encodeMonitor ⟨true, 5, 0, []⟩ ++ List.replicate 55 0⟩
        1700000000 [83, 79, 76, 47, 85, 83, 68, 67] 2500000000 10000000
        true OrderbookEventType.orderPlaced).1
      = Except.error ProgErr.borshIoDeserialize
    ∧ (appendStep ⟨true, 5, 0, []⟩ 1700000000
        [83, 79, 76, 47, 85, 83, 68, 67] 2500000000 10000000 true
        OrderbookEventType.orderPlaced).events
      = [⟨1700000000, [83, 79, 76, 47, 85, 83, 68, 67], 2500000000,
          10000000, true, OrderbookEventType.orderPlaced⟩] := by
  decide

/-- Claim C9: the append's decode consumes the whole region — any
region consisting of a valid encoding followed by at least one trailing
byte makes the append fail with the deserialization error and leave the
region unchanged, and any region that does decode has exactly the
decoded state's encoded length. -/
theorem c9_exact_size_decode (program_id k : Nat) (clock : Int)
    (market_name : List Nat) (price size : Nat) (is_bid : Bool)
    (event_type : OrderbookEventType) (s : OrderbookMonitor)
    (junk : List Nat) (hwf : wfMonitor s) (hne : junk ≠ []) :
    process_record_event program_id ⟨k, program_id, encodeMonitor s ++ junk⟩
        clock market_name price size is_bid event_type
      = (Except.error ProgErr.borshIoDeserialize, encodeMonitor s ++ junk)
    ∧ ∀ data st, tryFromSlice data = some st →
        data.length = (encodeMonitor st).length := by
  constructor
  · exact process_record_event_undecodable program_id _ clock market_name
      price size is_bid event_type rfl (tryFromSlice_junk s junk hwf hne)
  · intro data st h
    exact tryFromSlice_length h

/-- Claim C9 witness: a fresh 45-byte encoding with one trailing zero
byte is rejected by the append's decode step. -/
theorem c9_exact_size_decode_witness :
    process_record_event 7 ⟨5, 7, encodeMonitor ⟨true, 5, 0, []⟩ ++ [0]⟩
        0 [] 1 1 true OrderbookEventType.orderPlaced
      = (Except.error ProgErr.borshIoDeserialize,
         encodeMonitor ⟨true, 5, 0, []⟩ ++ [0])
    ∧ ∀ data st, tryFromSlice data = some st →
        data.length = (encodeMonitor st).length :=
  c9_exact_size_decode 7 5 0 [] 1 1 true OrderbookEventType.orderPlaced
    ⟨true, 5, 0, []⟩ [0] (by decide) (by decide)

/-- Claim C10: the append never reads the stored authority (and takes
no signer input at all): states differing only in the authority field
step to states again differing only in authority, and the processor's
success/failure outcome on their encodings is identical. -/
theorem c10_authority_irrelevant (program_id k ow : Nat) (clock : Int)
    (market_name : List Nat) (price size : Nat) (is_bid : Bool)
    (event_type : OrderbookEventType) (s : OrderbookMonitor) (a : Nat)
    (hwf : wfMonitor s) (ha : a < 2 ^ 256) :
    appendStep { s with authority := a } clock market_name price size is_bid
        event_type
      = { appendStep s clock market_name price size is_bid event_type with
          authority := a }
    ∧ (process_record_event program_id
          ⟨k, ow, encodeMonitor { s with authority := a }⟩ clock market_name
          price size is_bid event_type).1
      = (process_record_event program_id ⟨k, ow, encodeMonitor s⟩ clock
          market_name price size is_bid event_type).1 := by
  constructor
  · rfl
  · by_cases how : ow = program_id
    · have hwf2 : wfMonitor { s with authority := a } := by
        obtain ⟨h1, h2, h3, h4⟩ := hwf
        exact ⟨ha, h2, h3, h4⟩
      rw [process_record_event_decoded program_id _ clock market_name price
            size is_bid event_type how _ (tryFromSlice_encodeMonitor _ hwf2),
          process_record_event_decoded program_id _ clock market_name price
            size is_bid event_type how _ (tryFromSlice_encodeMonitor _ hwf)]
    · rw [process_record_event_bad_owner program_id _ clock market_name price
            size is_bid event_type how,
          process_record_event_bad_owner program_id _ clock market_name price
            size is_bid event_type how]

/-- Claim C10 witness: authority-independence evaluated on a concrete
state and the authority value 6. -/
theorem c10_authority_irrelevant_witness :
    appendStep { (⟨true, 5, 0, []⟩ : OrderbookMonitor) with authority := 6 }
        0 [] 1 1 true OrderbookEventType.orderPlaced
      = { appendStep ⟨true, 5, 0, []⟩ 0 [] 1 1 true
          OrderbookEventType.orderPlaced with authority := 6 }
    ∧ (process_record_event 7
          ⟨5, 7, encodeMonitor { (⟨true, 5, 0, []⟩ : OrderbookMonitor) with
            authority := 6 }⟩ 0 [] 1 1 true
          OrderbookEventType.orderPlaced).1
      = (process_record_event 7 ⟨5, 7, encodeMonitor ⟨true, 5, 0, []⟩⟩ 0 []
          1 1 true OrderbookEventType.orderPlaced).1 :=
  c10_authority_irrelevant 7 5 7 0 [] 1 1 true
    OrderbookEventType.orderPlaced ⟨true, 5, 0, []⟩ 6 (by decide) (by decide)

end OB
